import Mathlib

/-!
Verification of the core of the rd documentation generator: the
conversion pipeline (src/convert/mod.rs) that turns frontend AST nodes
into normalized Documentation records, and the Store (src/store.rs)
that indexes module paths and persists them through an on-disk cache.

The embedding is shallow: Rust enums become Lean inductives, structs
become structures, `HashMap`/`HashSet` become function maps / `Finset`,
opaque source-text projections (`pprust` pretty-printing of types,
expressions, identifiers) are modelled as `String` fields carried
through unchanged, and the filesystem is an explicit map from file
paths to file contents.
-/

namespace Rd

/-- Package metadata inside `CrateInfo`. Modelled from the spec: the
conversion context exposes the crate's package name, read in
src/convert/mod.rs when a root module has no identifier. -/
structure Package where
  name : String
  deriving DecidableEq, Repr

/-- Crate information carried by the conversion `Context`. Modelled from
the spec: only the package name is consumed by the converter. -/
structure CrateInfo where
  package : Package
  deriving DecidableEq, Repr

/-- Read-only conversion configuration (src/convert/mod.rs, `Context`).
`PathBuf` is modelled as `String`. -/
structure Context where
  store_path : String
  crate_info : CrateInfo
  deriving DecidableEq, Repr

namespace ast

/-- Source-level visibility from the external frontend. Modelled from
the spec: besides Public and Inherited the frontend has further
variants (crate-local and restricted visibility) which the converter's
catch-all arm collapses to Private. -/
inductive Visibility where
  | Public
  | Crate
  | Restricted
  | Inherited
  deriving DecidableEq, Repr

/-- Source-level unsafety marker, as matched in src/convert/mod.rs. -/
inductive Unsafety where
  | Normal
  | Unsafe
  deriving DecidableEq, Repr

/-- Source-level constness marker, as matched in src/convert/mod.rs. -/
inductive Constness where
  | Const
  | NotConst
  deriving DecidableEq, Repr

end ast

namespace abi

/-- Source-level calling convention (`abi::Abi`), the sixteen variants
matched in src/convert/mod.rs lines 82-103. -/
inductive Abi where
  | Cdecl
  | Stdcall
  | Fastcall
  | Vectorcall
  | Aapcs
  | Win64
  | SysV64
  | PtxKernel
  | Msp430Interrupt
  | Rust
  | C
  | System
  | RustIntrinsic
  | RustCall
  | PlatformIntrinsic
  | Unadjusted
  deriving DecidableEq, Repr

end abi

/-- Normalized visibility of the document model. -/
inductive Visibility where
  | Public
  | Inherited
  | Private
  deriving DecidableEq, Repr

/-- Normalized unsafety of the document model. -/
inductive Unsafety where
  | Normal
  | Unsafe
  deriving DecidableEq, Repr

/-- Normalized constness of the document model. -/
inductive Constness where
  | Const
  | NotConst
  deriving DecidableEq, Repr

/-- Normalized calling convention of the document model. -/
inductive Abi where
  | Cdecl
  | Stdcall
  | Fastcall
  | Vectorcall
  | Aapcs
  | Win64
  | SysV64
  | PtxKernel
  | Msp430Interrupt
  | Rust
  | C
  | System
  | RustIntrinsic
  | RustCall
  | PlatformIntrinsic
  | Unadjusted
  deriving DecidableEq, Repr

/-- Embedding of `impl Convert<Unsafety> for ast::Unsafety`
(src/convert/mod.rs lines 54-61). The source's unused context
parameter is kept. -/
def convertUnsafety (_cx : Context) : ast.Unsafety → Unsafety
  | .Normal => .Normal
  | .Unsafe => .Unsafe

/-- Embedding of `impl Convert<Constness> for ast::Constness`
(src/convert/mod.rs lines 63-70). -/
def convertConstness (_cx : Context) : ast.Constness → Constness
  | .Const => .Const
  | .NotConst => .NotConst

/-- Embedding of `impl Convert<Visibility> for ast::Visibility`
(src/convert/mod.rs lines 72-80): Public and Inherited map to their
namesakes, every other variant falls to Private via the wildcard arm. -/
def convertVisibility (_cx : Context) : ast.Visibility → Visibility
  | .Public => .Public
  | .Inherited => .Inherited
  | _ => .Private

/-- Embedding of `impl Convert<Abi> for abi::Abi`
(src/convert/mod.rs lines 82-103): the fixed 16-entry table with no
wildcard arm. -/
def convertAbi (_cx : Context) : abi.Abi → Abi
  | .Cdecl => .Cdecl
  | .Stdcall => .Stdcall
  | .Fastcall => .Fastcall
  | .Vectorcall => .Vectorcall
  | .Aapcs => .Aapcs
  | .Win64 => .Win64
  | .SysV64 => .SysV64
  | .PtxKernel => .PtxKernel
  | .Msp430Interrupt => .Msp430Interrupt
  | .Rust => .Rust
  | .C => .C
  | .System => .System
  | .RustIntrinsic => .RustIntrinsic
  | .RustCall => .RustCall
  | .PlatformIntrinsic => .PlatformIntrinsic
  | .Unadjusted => .Unadjusted

/-- Default context used by closed witness statements. -/
def exampleContext : Context :=
  { store_path := "/tmp/store", crate_info := { package := { name := "mycrate" } } }

/-- Module path. Modelled from the spec: an ordered sequence of
identifier segments locating an entity in the module hierarchy, used
as an equality/hash key. -/
abbrev ModPath := List String

/-- Parent of a module path. Modelled from the spec: drop the last
segment; absent for the root. -/
def ModPath.parent (p : ModPath) : Option ModPath :=
  if p.length ≤ 1 then none else some p.dropLast

/-- Attributes attached to an item. Modelled from the spec: the ordered
sequence of doc-comment strings; `Attributes::from_ast` is the
projection of the frontend's attributes to these strings, modelled as
the identity on the already-projected list. -/
abbrev Attributes := List String

/-- Link category tag. Modelled from the spec: DocType enumerates link
categories; the four used by trait-item classification in
src/convert/mod.rs. -/
inductive DocType where
  | TraitItemConst
  | TraitItemMethod
  | TraitItemType
  | TraitItemMacro
  deriving DecidableEq, Repr

/-- Non-owning cross-reference. Modelled from the spec: name plus path
only, no full record. -/
structure DocLink where
  name : String
  path : ModPath
  deriving DecidableEq, Repr

/-- The `HashMap<DocType, Vec<DocLink>>` used for a record's `links`
field, modelled as a function map: `none` means the key is absent. -/
def DocRelatedItems := DocType → Option (List DocLink)

/-- Empty links map (`HashMap::new()`). -/
def DocRelatedItems.empty : DocRelatedItems := fun _ => none

/-- Insertion into a links map (`HashMap::insert`). -/
def DocRelatedItems.insert (m : DocRelatedItems) (k : DocType)
    (v : List DocLink) : DocRelatedItems :=
  fun q => if q = k then some v else m q

/-- Payload of a module record (`Module` in convert's doc containers):
the `is_crate` flag set by module conversion. -/
structure ModuleData where
  is_crate : Bool
  deriving DecidableEq, Repr

/-- Payload of a constant record: type and initializer expression kept
as source-text projections. -/
structure ConstantData where
  type_ : String
  expr : String
  deriving DecidableEq, Repr

/-- Placeholder for generics, recorded empty by function conversion
(src/convert/mod.rs line 189). -/
structure Generics where
  deriving DecidableEq, Repr

/-- Payload of a function record: signature text plus normalized
modifiers, as built in src/convert/mod.rs lines 187-193. -/
structure FunctionData where
  header : String
  generics : Generics
  unsafety : Unsafety
  constness : Constness
  abi : Abi
  deriving DecidableEq, Repr

/-- Payload of a trait record: normalized unsafety only. -/
structure TraitData where
  unsafety : Unsafety
  deriving DecidableEq, Repr

/-- Normalized method signature (`MethodSig` target of
src/convert/mod.rs lines 199-208). -/
structure MethodSig where
  unsafety : Unsafety
  constness : Constness
  abi : Abi
  header : String
  deriving DecidableEq, Repr

/-- Normalized trait-item kind (target of the `Convert<TraitItemKind>`
impl, src/convert/mod.rs lines 275-292): the Const body keeps type and
optional expression text, Method keeps the signature, Type keeps the
optional bound type text, Macro keeps the invocation text. -/
inductive TraitItemKind where
  | Const (ty : String) (expr : Option String)
  | Method (sig : MethodSig)
  | Type (ty : Option String)
  | Macro (mac : String)
  deriving DecidableEq, Repr

/-- Payload of a trait-item record: the classified node. -/
structure TraitItemData where
  node : TraitItemKind
  deriving DecidableEq, Repr

/-- Payload of a struct record: the field map, always empty in the
current conversion (src/convert/mod.rs line 302). -/
structure StructData where
  fields : DocRelatedItems

/-- Tagged union over record payloads (`DocInnerData`); the Enum
variant is defined but never produced by the conversions in
src/convert/mod.rs. -/
inductive DocInnerData where
  | ModuleDoc (m : ModuleData)
  | ConstDoc (c : ConstantData)
  | FnDoc (f : FunctionData)
  | TraitDoc (t : TraitData)
  | TraitItemDoc (ti : TraitItemData)
  | StructDoc (s : StructData)
  | EnumDoc

/-- The Documentation record (`NewDocTemp_` in convert's doc
containers): name, doc-comment attrs, module path, optional
visibility, tagged payload and links map. -/
structure NewDocTemp_ where
  name : String
  attrs : Attributes
  mod_path : ModPath
  visibility : Option Visibility
  inner_data : DocInnerData
  links : DocRelatedItems

/-- Alias used by the Store (`convert::Documentation`). -/
abbrev Documentation := NewDocTemp_

namespace document

/-- Source constant node (`document::Constant`). Modelled from the
spec's input contract and the fields read by its conversion:
identifier, doc strings, resolved path, source visibility, and the
type/initializer source-text projections. -/
structure Constant where
  ident : String
  attrs : Attributes
  path : ModPath
  vis : ast.Visibility
  type_ : String
  expr : String
  deriving DecidableEq, Repr

/-- Source function node (`document::Function`). Modelled from the
spec's input contract and the fields read by its conversion. -/
structure Function where
  ident : String
  attrs : Attributes
  path : ModPath
  vis : ast.Visibility
  decl : String
  unsafety : ast.Unsafety
  constness : ast.Constness
  abi : abi.Abi
  deriving DecidableEq, Repr

/-- Source trait-item kind (`ast::TraitItemKind`) as matched in
src/convert/mod.rs: Const carries type and optional initializer,
Method carries a signature (the block is dropped), Type carries an
optional type (bounds are dropped), Macro carries the invocation
text. Payloads already source-text projected. -/
inductive TraitItemKindSrc where
  | Const (ty : String) (expr : Option String)
  | Method (unsafety : ast.Unsafety) (constness : ast.Constness)
      (abi : abi.Abi) (decl : String)
  | Type (ty : Option String)
  | Macro (mac : String)
  deriving DecidableEq, Repr

/-- Source trait-item node (`document::TraitItem`). Modelled from the
spec's input contract and the fields read by its conversion. -/
structure TraitItem where
  ident : String
  attrs : Attributes
  path : ModPath
  node : TraitItemKindSrc
  deriving DecidableEq, Repr

/-- Source trait node (`document::Trait`). Modelled from the spec's
input contract and the fields read by its conversion. -/
structure Trait where
  ident : String
  attrs : Attributes
  path : ModPath
  vis : ast.Visibility
  unsafety : ast.Unsafety
  items : List TraitItem
  deriving DecidableEq, Repr

/-- Source struct node (`document::Struct`). Modelled from the spec's
input contract: it carries a source visibility and fields, both of
which the current conversion ignores. -/
structure Struct where
  ident : String
  attrs : Attributes
  path : ModPath
  vis : ast.Visibility
  fields : List String
  deriving DecidableEq, Repr

/-- Source module node (`document::Module`). Modelled from the spec's
input contract and the fields read by its conversion: child items
already partitioned by syntactic kind, optional identifier (absent for
the root module), and the module's own metadata. -/
inductive Module where
  | mk (ident : Option String) (attrs : Attributes) (path : ModPath)
      (vis : ast.Visibility) (is_crate : Bool)
      (consts : List Constant) (traits : List Trait)
      (fns : List Function) (mods : List Module)

/-- Identifier of a module node. -/
def Module.ident : Module → Option String
  | .mk i _ _ _ _ _ _ _ _ => i

/-- Doc-comment attrs of a module node. -/
def Module.attrs : Module → Attributes
  | .mk _ a _ _ _ _ _ _ _ => a

/-- Resolved path of a module node. -/
def Module.path : Module → ModPath
  | .mk _ _ p _ _ _ _ _ _ => p

/-- Source visibility of a module node. -/
def Module.vis : Module → ast.Visibility
  | .mk _ _ _ v _ _ _ _ _ => v

/-- Crate-root flag of a module node. -/
def Module.is_crate : Module → Bool
  | .mk _ _ _ _ c _ _ _ _ => c

/-- Constant children of a module node. -/
def Module.consts : Module → List Constant
  | .mk _ _ _ _ _ cs _ _ _ => cs

/-- Trait children of a module node. -/
def Module.traits : Module → List Trait
  | .mk _ _ _ _ _ _ ts _ _ => ts

/-- Function children of a module node. -/
def Module.fns : Module → List Function
  | .mk _ _ _ _ _ _ _ fs _ => fs

/-- Submodule children of a module node. -/
def Module.mods : Module → List Module
  | .mk _ _ _ _ _ _ _ _ ms => ms

end document

/-- Embedding of `impl Convert<NewDocTemp_> for document::Constant`
(src/convert/mod.rs lines 164-178). -/
def document.Constant.convert (cx : Context) (c : document.Constant) : NewDocTemp_ :=
  { name := c.ident
    attrs := c.attrs
    mod_path := c.path
    visibility := some (convertVisibility cx c.vis)
    inner_data := .ConstDoc { type_ := c.type_, expr := c.expr }
    links := DocRelatedItems.empty }

/-- Embedding of `impl Convert<NewDocTemp_> for document::Function`
(src/convert/mod.rs lines 180-197). -/
def document.Function.convert (cx : Context) (f : document.Function) : NewDocTemp_ :=
  { name := f.ident
    attrs := f.attrs
    mod_path := f.path
    visibility := some (convertVisibility cx f.vis)
    inner_data := .FnDoc
      { header := f.decl
        generics := {}
        unsafety := convertUnsafety cx f.unsafety
        constness := convertConstness cx f.constness
        abi := convertAbi cx f.abi }
    links := DocRelatedItems.empty }

/-- Embedding of `impl Convert<TraitItemKind> for ast::TraitItemKind`
(src/convert/mod.rs lines 275-292): method blocks and type bounds are
dropped, payload texts carried through. -/
def convertTraitItemKind (cx : Context) : document.TraitItemKindSrc → TraitItemKind
  | .Const ty e => .Const ty e
  | .Method u c a d =>
    .Method
      { unsafety := convertUnsafety cx u
        constness := convertConstness cx c
        abi := convertAbi cx a
        header := d }
  | .Type ty => .Type ty
  | .Macro mac => .Macro mac

/-- Embedding of `impl Convert<NewDocTemp_> for document::TraitItem`
(src/convert/mod.rs lines 226-239): visibility fixed to Inherited. -/
def document.TraitItem.convert (cx : Context) (ti : document.TraitItem) : NewDocTemp_ :=
  { name := ti.ident
    attrs := ti.attrs
    mod_path := ti.path
    visibility := some Visibility.Inherited
    inner_data := .TraitItemDoc { node := convertTraitItemKind cx ti.node }
    links := DocRelatedItems.empty }

/-- Classification loop of `impl Convert<DocRelatedItems> for
[document::TraitItem]` (src/convert/mod.rs lines 248-255): partition
the items by syntactic kind into consts, methods, types and macros,
each group keeping source order. -/
def classifyTraitItems :
    List document.TraitItem →
      List document.TraitItem × List document.TraitItem ×
      List document.TraitItem × List document.TraitItem
  | [] => ([], [], [], [])
  | item :: rest =>
    let r := classifyTraitItems rest
    match item.node with
    | .Const .. => (item :: r.1, r.2.1, r.2.2.1, r.2.2.2)
    | .Method .. => (r.1, item :: r.2.1, r.2.2.1, r.2.2.2)
    | .Type .. => (r.1, r.2.1, item :: r.2.2.1, r.2.2.2)
    | .Macro .. => (r.1, r.2.1, r.2.2.1, item :: r.2.2.2)

/-- The `conv` closure of trait-item classification
(src/convert/mod.rs lines 257-264): project an item to its DocLink. -/
def traitItemDocLink (_cx : Context) (item : document.TraitItem) : DocLink :=
  { name := item.ident, path := item.path }

/-- Embedding of `impl Convert<DocRelatedItems> for
[document::TraitItem]` (src/convert/mod.rs lines 241-273): classify,
project each group to links, and insert all four groups under their
DocType keys. -/
def convertTraitItems (cx : Context) (items : List document.TraitItem) :
    DocRelatedItems :=
  let r := classifyTraitItems items
  ((((DocRelatedItems.empty.insert
      .TraitItemConst (r.1.map (traitItemDocLink cx))).insert
      .TraitItemMethod (r.2.1.map (traitItemDocLink cx))).insert
      .TraitItemType (r.2.2.1.map (traitItemDocLink cx))).insert
      .TraitItemMacro (r.2.2.2.map (traitItemDocLink cx)))

/-- Embedding of `impl Convert<NewDocTemp_> for document::Trait`
(src/convert/mod.rs lines 210-224): the links field is populated by
classifying the trait's items. -/
def document.Trait.convert (cx : Context) (t : document.Trait) : NewDocTemp_ :=
  { name := t.ident
    attrs := t.attrs
    mod_path := t.path
    visibility := some (convertVisibility cx t.vis)
    inner_data := .TraitDoc { unsafety := convertUnsafety cx t.unsafety }
    links := convertTraitItems cx t.items }

/-- Embedding of `impl Convert<NewDocTemp_> for document::Struct`
(src/convert/mod.rs lines 294-307): visibility fixed to Inherited and
an always-empty field map; the node's own visibility and fields are
not read. -/
def document.Struct.convert (_cx : Context) (s : document.Struct) : NewDocTemp_ :=
  { name := s.ident
    attrs := s.attrs
    mod_path := s.path
    visibility := some Visibility.Inherited
    inner_data := .StructDoc { fields := DocRelatedItems.empty }
    links := DocRelatedItems.empty }

mutual

/-- Embedding of `impl Convert<Vec<NewDocTemp_>> for document::Module`
(src/convert/mod.rs lines 122-162): constant records, then trait
records, then function records, then the flattened submodule records,
and finally the module's own record, whose name falls back to the
crate's package name when the module has no identifier. -/
def document.Module.convert (cx : Context) : document.Module → List NewDocTemp_
  | .mk ident attrs path vis isCrate consts traits fns mods =>
    consts.map (document.Constant.convert cx) ++
    traits.map (document.Trait.convert cx) ++
    fns.map (document.Function.convert cx) ++
    convertModList cx mods ++
    [{ name := match ident with
               | some id => id
               | none => cx.crate_info.package.name
       attrs := attrs
       mod_path := path
       visibility := some (convertVisibility cx vis)
       inner_data := .ModuleDoc { is_crate := isCrate }
       links := DocRelatedItems.empty }]

/-- The `flat_map` over submodules in module conversion
(src/convert/mod.rs line 129): concatenate each submodule's records in
order. -/
def convertModList (cx : Context) : List document.Module → List NewDocTemp_
  | [] => []
  | m :: ms => document.Module.convert cx m ++ convertModList cx ms

end

/-- The module's own record (`mod_doc` in src/convert/mod.rs lines
142-156), stated through the accessors. -/
def moduleOwnDoc (cx : Context) (m : document.Module) : NewDocTemp_ :=
  { name := match m.ident with
            | some id => id
            | none => cx.crate_info.package.name
    attrs := m.attrs
    mod_path := m.path
    visibility := some (convertVisibility cx m.vis)
    inner_data := .ModuleDoc { is_crate := m.is_crate }
    links := DocRelatedItems.empty }

/-- Contents of a file in the modelled filesystem: either a
well-formed `serde_json` serialization of a module-path set (the only
value the store ever writes), or raw bytes that do not deserialize to
one. -/
inductive FileContent where
  | modpathSet (s : Finset ModPath)
  | corrupt (raw : String)

/-- Filesystem state: a map from file path to contents; `none` is a
missing or unreadable file. -/
def FS := String → Option FileContent

/-- Writing a file (`File::create` followed by `write_all`),
overwriting any existing contents. -/
def FS.write (fs : FS) (p : String) (c : FileContent) : FS :=
  fun q => if q = p then some c else fs q

/-- The Store (src/store.rs lines 20-29): documents plus the derived
module-path, function-name and struct-name indices. The two `HashMap`
indices are modelled as function maps where `none` marks an absent
key. -/
structure Store where
  name : String
  path : String
  documents : List Documentation
  modpaths : Finset ModPath
  functions : ModPath → Option (Finset String)
  structs : ModPath → Option (Finset String)

/-- Embedding of `Store::new` (src/store.rs lines 32-41): everything
empty, both indices without any key. -/
def Store.new (path : String) : Store :=
  { name := ""
    path := path
    documents := []
    modpaths := ∅
    functions := fun _ => none
    structs := fun _ => none }

/-- Embedding of `Store::get_functions` (src/store.rs lines 43-45):
exact-match lookup returning `none` for an unknown scope. -/
def Store.get_functions (s : Store) (scope : ModPath) : Option (Finset String) :=
  s.functions scope

/-- Embedding of `Store::get_structs` (src/store.rs lines 47-49). -/
def Store.get_structs (s : Store) (scope : ModPath) : Option (Finset String) :=
  s.structs scope

/-- Path of the cache file, `self.path.join("cache.odoc")`
(src/store.rs lines 60 and 109). -/
def Store.cachePath (s : Store) : String :=
  s.path ++ "/cache.odoc"

/-- Outcome of `Store::load_cache`: the updated store on success, an
error message for a missing/unreadable file, or an abort — the
source's `.unwrap()` on `serde_json::from_str` panics when the file
contents do not deserialize. -/
inductive LoadCacheResult where
  | ok (st : Store)
  | err (msg : String)
  | panicked

/-- Embedding of `Store::load_cache` (src/store.rs lines 59-74): open
and read `cache.odoc` (missing/unreadable file becomes a chained
error), then deserialize with `.unwrap()`, which aborts on corrupt
contents; on success the in-memory module-path set is replaced. -/
def Store.load_cache (fs : FS) (s : Store) : LoadCacheResult :=
  match fs s.cachePath with
  | none => .err ("Couldn't find oxidoc cache " ++ s.cachePath)
  | some (.modpathSet ms) => .ok { s with modpaths := ms }
  | some (.corrupt _) => .panicked

/-- Embedding of `Store::save_cache` (src/store.rs lines 106-114):
serialize the module-path set and write it to `cache.odoc` inside the
root directory, overwriting any existing file. -/
def Store.save_cache (s : Store) (fs : FS) : FS :=
  fs.write s.cachePath (.modpathSet s.modpaths)

/-- Embedding of `Store::add_modpath` (src/store.rs lines 76-78):
insert the path into the known-module-path set. -/
def Store.add_modpath (s : Store) (scope : ModPath) : Store :=
  { s with modpaths := insert scope s.modpaths }

/-- Strict ancestors of a path in parent order, as walked by the
unused helper `Store::add_all_modpaths` (src/store.rs lines 80-86). -/
def ModPath.strictAncestors (p : ModPath) : List ModPath :=
  if _h : p.length ≤ 1 then []
  else p.dropLast :: ModPath.strictAncestors p.dropLast
termination_by p.length
decreasing_by
  simp only [List.length_dropLast]
  omega

/-- Embedding of `Store::add_all_modpaths` (src/store.rs lines 80-86),
present in the source but never called: register every strict ancestor
of the scope. -/
def Store.add_all_modpaths (s : Store) (scope : ModPath) : Store :=
  (ModPath.strictAncestors scope).foldl
    (fun st p => { st with modpaths := insert p st.modpaths }) s

/-- The store-mutating operations available in src/store.rs and the
converter (`store.documents = documents` in src/convert/mod.rs line
116). No operation in the source ever inserts into the `functions` or
`structs` indices. -/
inductive StoreOp where
  | addModpath (p : ModPath)
  | addAllModpaths (p : ModPath)
  | loadCache (fs : FS)
  | setDocuments (docs : List Documentation)

/-- Applying one store operation; a failed or aborted `load_cache`
leaves the store unchanged. -/
def applyStoreOp (s : Store) : StoreOp → Store
  | .addModpath p => s.add_modpath p
  | .addAllModpaths p => s.add_all_modpaths p
  | .loadCache fs =>
    match Store.load_cache fs s with
    | .ok s' => s'
    | _ => s
  | .setDocuments ds => { s with documents := ds }

/-- Items whose node is a Const, the first classification group. -/
def isConstItem (it : document.TraitItem) : Bool :=
  match it.node with
  | .Const .. => true
  | _ => false

/-- Items whose node is a Method, the second classification group. -/
def isMethodItem (it : document.TraitItem) : Bool :=
  match it.node with
  | .Method .. => true
  | _ => false

/-- Items whose node is a Type, the third classification group. -/
def isTypeItem (it : document.TraitItem) : Bool :=
  match it.node with
  | .Type .. => true
  | _ => false

/-- Items whose node is a Macro, the fourth classification group. -/
def isMacroItem (it : document.TraitItem) : Bool :=
  match it.node with
  | .Macro .. => true
  | _ => false

lemma classifyTraitItems_eq_filters (items : List document.TraitItem) :
    classifyTraitItems items =
      (items.filter isConstItem, items.filter isMethodItem,
       items.filter isTypeItem, items.filter isMacroItem) := by
  induction items with
  | nil => rfl
  | cons it rest ih =>
    simp only [classifyTraitItems, ih]
    cases h : it.node <;>
      simp [isConstItem, isMethodItem, isTypeItem, isMacroItem,
        List.filter_cons, h]

lemma convertModList_eq_flatten (cx : Context) (ms : List document.Module) :
    convertModList cx ms = (ms.map (document.Module.convert cx)).flatten := by
  induction ms with
  | nil => rfl
  | cons m ms ih => simp [convertModList, ih]

lemma Module.convert_decomposition (cx : Context) (m : document.Module) :
    document.Module.convert cx m =
      m.consts.map (document.Constant.convert cx) ++
      m.traits.map (document.Trait.convert cx) ++
      m.fns.map (document.Function.convert cx) ++
      (m.mods.map (document.Module.convert cx)).flatten ++
      [moduleOwnDoc cx m] := by
  cases m with
  | mk ident attrs path vis is_crate consts traits fns mods =>
    simp only [document.Module.convert, convertModList_eq_flatten,
      document.Module.consts, document.Module.traits, document.Module.fns,
      document.Module.mods, moduleOwnDoc, document.Module.ident,
      document.Module.attrs, document.Module.path, document.Module.vis,
      document.Module.is_crate]

/-- C6: the visibility mapping is total and deterministic — Public
maps to Public, Inherited maps to Inherited, and every other source
visibility variant maps to Private through the catch-all arm. -/
theorem visibility_mapping_total (cx : Context) :
    convertVisibility cx ast.Visibility.Public = Visibility.Public ∧
    convertVisibility cx ast.Visibility.Inherited = Visibility.Inherited ∧
    ∀ v : ast.Visibility, v ≠ ast.Visibility.Public →
      v ≠ ast.Visibility.Inherited →
      convertVisibility cx v = Visibility.Private := by
  refine ⟨rfl, rfl, ?_⟩
  intro v h1 h2
  cases v <;> simp_all [convertVisibility]

/-- Witness for `visibility_mapping_total` at the crate-local
visibility variant. -/
theorem visibility_mapping_total_witness :
    ast.Visibility.Crate ≠ ast.Visibility.Public ∧
    ast.Visibility.Crate ≠ ast.Visibility.Inherited ∧
    convertVisibility exampleContext ast.Visibility.Crate = Visibility.Private := by
  refine ⟨by decide, by decide, ?_⟩
  exact (visibility_mapping_total exampleContext).2.2 ast.Visibility.Crate
    (by decide) (by decide)

/-- C7: the Abi mapping is the fixed 16-entry like-named
correspondence with no fallback, hence total (it is a Lean function
over the full source enumeration) and injective. -/
theorem abi_mapping_sixteen_injective (cx : Context) :
    (∀ a b : abi.Abi, convertAbi cx a = convertAbi cx b → a = b) ∧
    convertAbi cx abi.Abi.Cdecl = Abi.Cdecl ∧
    convertAbi cx abi.Abi.Stdcall = Abi.Stdcall ∧
    convertAbi cx abi.Abi.Fastcall = Abi.Fastcall ∧
    convertAbi cx abi.Abi.Vectorcall = Abi.Vectorcall ∧
    convertAbi cx abi.Abi.Aapcs = Abi.Aapcs ∧
    convertAbi cx abi.Abi.Win64 = Abi.Win64 ∧
    convertAbi cx abi.Abi.SysV64 = Abi.SysV64 ∧
    convertAbi cx abi.Abi.PtxKernel = Abi.PtxKernel ∧
    convertAbi cx abi.Abi.Msp430Interrupt = Abi.Msp430Interrupt ∧
    convertAbi cx abi.Abi.Rust = Abi.Rust ∧
    convertAbi cx abi.Abi.C = Abi.C ∧
    convertAbi cx abi.Abi.System = Abi.System ∧
    convertAbi cx abi.Abi.RustIntrinsic = Abi.RustIntrinsic ∧
    convertAbi cx abi.Abi.RustCall = Abi.RustCall ∧
    convertAbi cx abi.Abi.PlatformIntrinsic = Abi.PlatformIntrinsic ∧
    convertAbi cx abi.Abi.Unadjusted = Abi.Unadjusted := by
  refine ⟨?_, rfl, rfl, rfl, rfl, rfl, rfl, rfl, rfl, rfl, rfl, rfl, rfl,
    rfl, rfl, rfl, rfl⟩
  intro a b h
  cases a <;> cases b <;> simp_all [convertAbi]

/-- Witness for `abi_mapping_sixteen_injective`, discharging the
injectivity hypothesis at a concrete pair. -/
theorem abi_mapping_sixteen_injective_witness :
    convertAbi exampleContext abi.Abi.Rust = convertAbi exampleContext abi.Abi.Rust ∧
    abi.Abi.Rust = abi.Abi.Rust :=
  ⟨rfl, (abi_mapping_sixteen_injective exampleContext).1 abi.Abi.Rust
    abi.Abi.Rust rfl⟩

/-- C10: struct conversion fixes the record's visibility to
`Some(Inherited)` and an empty field map, ignoring the node's own
visibility field entirely. -/
theorem struct_conversion_fixed_visibility (cx : Context) (s : document.Struct) :
    (document.Struct.convert cx s).visibility = some Visibility.Inherited ∧
    (document.Struct.convert cx s).inner_data =
      DocInnerData.StructDoc { fields := DocRelatedItems.empty } ∧
    ∀ v : ast.Visibility,
      document.Struct.convert cx { s with vis := v } =
        document.Struct.convert cx s := by
  exact ⟨rfl, rfl, fun v => rfl⟩

/-- C8: the module's own record is the last record produced, and its
name is the module's identifier when present, otherwise the crate's
package name from the conversion context. -/
theorem module_record_name (cx : Context) (m : document.Module) :
    (document.Module.convert cx m).getLast? = some (moduleOwnDoc cx m) ∧
    (moduleOwnDoc cx m).name =
      m.ident.getD cx.crate_info.package.name := by
  constructor
  · rw [Module.convert_decomposition]
    exact List.getLast?_concat _
  · cases m with
    | mk ident attrs path vis is_crate consts traits fns mods =>
      cases ident <;> rfl

/-- C1: module conversion emits all constant records, then all trait
records, then all function records, then each submodule's flattened
records depth-first in submodule order, and the module's own record
last; consequently the record count is C + T + F + (sum of submodule
record counts) + 1. -/
theorem module_conversion_order_count (cx : Context) (m : document.Module) :
    document.Module.convert cx m =
      m.consts.map (document.Constant.convert cx) ++
      m.traits.map (document.Trait.convert cx) ++
      m.fns.map (document.Function.convert cx) ++
      (m.mods.map (document.Module.convert cx)).flatten ++
      [moduleOwnDoc cx m] ∧
    (document.Module.convert cx m).length =
      m.consts.length + m.traits.length + m.fns.length +
      (m.mods.map fun sub => (document.Module.convert cx sub).length).sum + 1 := by
  refine ⟨Module.convert_decomposition cx m, ?_⟩
  rw [Module.convert_decomposition cx m]
  simp only [List.length_append, List.length_flatten, List.map_map,
    List.length_singleton, List.length_map, Function.comp_def]

lemma filter_group_lengths (items : List document.TraitItem) :
    (items.filter isConstItem).length + (items.filter isMethodItem).length +
    (items.filter isTypeItem).length + (items.filter isMacroItem).length =
      items.length := by
  induction items with
  | nil => rfl
  | cons it rest ih =>
    cases h : it.node <;>
      simp [List.filter_cons, isConstItem, isMethodItem, isTypeItem,
        isMacroItem, h] <;>
      omega

/-- C2: trait-item classification partitions the items into the four
groups by kind — each group equals the in-order filter of the items by
its kind predicate (so relative source order is preserved and, the
four predicates being exhaustive and mutually exclusive, every item
lands in exactly one group), the group sizes sum to the item count,
and the resulting links map holds all four DocType keys. -/
theorem trait_item_classification (cx : Context)
    (items : List document.TraitItem) :
    (classifyTraitItems items).1 = items.filter isConstItem ∧
    (classifyTraitItems items).2.1 = items.filter isMethodItem ∧
    (classifyTraitItems items).2.2.1 = items.filter isTypeItem ∧
    (classifyTraitItems items).2.2.2 = items.filter isMacroItem ∧
    (∀ it : document.TraitItem,
      (isConstItem it).toNat + (isMethodItem it).toNat +
      (isTypeItem it).toNat + (isMacroItem it).toNat = 1) ∧
    (classifyTraitItems items).1.length +
      (classifyTraitItems items).2.1.length +
      (classifyTraitItems items).2.2.1.length +
      (classifyTraitItems items).2.2.2.length = items.length ∧
    ∀ dt : DocType, (convertTraitItems cx items dt).isSome := by
  have hcl := classifyTraitItems_eq_filters items
  refine ⟨?_, ?_, ?_, ?_, ?_, ?_, ?_⟩
  · rw [hcl]
  · rw [hcl]
  · rw [hcl]
  · rw [hcl]
  · intro it
    cases h : it.node <;>
      simp [isConstItem, isMethodItem, isTypeItem, isMacroItem, h]
  · rw [hcl]
    exact filter_group_lengths items
  · intro dt
    cases dt <;>
      simp [convertTraitItems, DocRelatedItems.insert, DocRelatedItems.empty]

/-- C3: saving the cache and then loading it back on the unchanged
store succeeds and returns the store with the very same module-path
set; the empty set is the `s = Store.new path` instance. -/
theorem save_cache_load_cache_roundtrip (s : Store) (fs : FS) :
    Store.load_cache (s.save_cache fs) s = LoadCacheResult.ok s := by
  simp [Store.load_cache, Store.save_cache, FS.write]

/-- C4 evidence: on a missing cache file `load_cache` returns the
chained cache-unreadable error, but on a present cache file whose
contents do not deserialize the source's `.unwrap()` aborts the
process instead of returning a distinct cache-corrupt error. -/
theorem load_cache_corrupt_aborts :
    Store.load_cache (fun _ => none) (Store.new "/tmp/store") =
      LoadCacheResult.err
        ("Couldn't find oxidoc cache " ++ (Store.new "/tmp/store").cachePath) ∧
    Store.load_cache
      (FS.write (fun _ => none) (Store.new "/tmp/store").cachePath
        (FileContent.corrupt "not json"))
      (Store.new "/tmp/store") = LoadCacheResult.panicked := by
  constructor
  · rfl
  · simp [Store.load_cache, FS.write]

lemma foldl_insert_modpaths_preserves (l : List ModPath) (s : Store) :
    ((l.foldl (fun st p => { st with modpaths := insert p st.modpaths }) s).functions
        = s.functions ∧
     (l.foldl (fun st p => { st with modpaths := insert p st.modpaths }) s).structs
        = s.structs) := by
  induction l generalizing s with
  | nil => exact ⟨rfl, rfl⟩
  | cons q l ih => exact ih _

lemma applyStoreOp_preserves_indices (s : Store) (op : StoreOp) :
    (applyStoreOp s op).functions = s.functions ∧
    (applyStoreOp s op).structs = s.structs := by
  cases op with
  | addModpath p => exact ⟨rfl, rfl⟩
  | addAllModpaths p => exact foldl_insert_modpaths_preserves _ s
  | loadCache fs =>
    rcases hc : fs s.cachePath with _ | fc
    · simp [applyStoreOp, Store.load_cache, hc]
    · cases fc <;> simp [applyStoreOp, Store.load_cache, hc]
  | setDocuments ds => exact ⟨rfl, rfl⟩

lemma foldl_ops_preserves_indices (ops : List StoreOp) (s : Store) :
    ((ops.foldl applyStoreOp s).functions = s.functions ∧
     (ops.foldl applyStoreOp s).structs = s.structs) := by
  induction ops generalizing s with
  | nil => exact ⟨rfl, rfl⟩
  | cons op ops ih =>
    obtain ⟨h1, h2⟩ := applyStoreOp_preserves_indices s op
    obtain ⟨h3, h4⟩ := ih (applyStoreOp s op)
    exact ⟨h3.trans h1, h4.trans h2⟩

/-- C5: starting from a fresh store, no available store operation ever
inserts into the function or struct indices, so `get_functions` and
`get_structs` return `none` (absent) on every scope — in particular on
any scope never passed to an insertion — never a present-but-empty
set. -/
theorem store_lookup_unknown_scope (path : String) (ops : List StoreOp)
    (p : ModPath) :
    (ops.foldl applyStoreOp (Store.new path)).get_functions p = none ∧
    (ops.foldl applyStoreOp (Store.new path)).get_structs p = none := by
  obtain ⟨h1, h2⟩ := foldl_ops_preserves_indices ops (Store.new path)
  constructor
  · show (ops.foldl applyStoreOp (Store.new path)).functions p = none
    rw [h1]
    rfl
  · show (ops.foldl applyStoreOp (Store.new path)).structs p = none
    rw [h2]
    rfl

/-- C9: `add_modpath` inserts exactly the given path — membership in
the new set is equality with the inserted path or membership in the
old set, so no ancestor path becomes registered — and every other
store field (documents, functions, structs, name, path) is
unchanged. -/
theorem add_modpath_exact (s : Store) (p : ModPath) :
    (s.add_modpath p).modpaths = insert p s.modpaths ∧
    (∀ q : ModPath, q ∈ (s.add_modpath p).modpaths ↔ q = p ∨ q ∈ s.modpaths) ∧
    (s.add_modpath p).documents = s.documents ∧
    (s.add_modpath p).functions = s.functions ∧
    (s.add_modpath p).structs = s.structs ∧
    (s.add_modpath p).name = s.name ∧
    (s.add_modpath p).path = s.path := by
  refine ⟨rfl, ?_, rfl, rfl, rfl, rfl, rfl⟩
  intro q
  simp [Store.add_modpath, Finset.mem_insert]

end Rd
